import Mathlib

/-!
Verification of the gfc project-orchestration core against its
natural-language specification.  The Rust sources are shallowly embedded:
pure functions become Lean functions, effectful operations take explicit
oracles for the results of I/O (filesystem, external git/docker processes,
serde serialization) and return, besides their result, the list of external
actions they performed.  Machine integers of the source (`usize`) are
modelled as `Nat`; Rust `Result<T, E>` becomes `Except E T`.
-/

namespace Gfc

/-! ## Container model (src/models/docker_compose.rs) -/

/-- Embeds `enum ContainerState` of src/models/docker_compose.rs. -/
inductive ContainerState where
  | created
  | dead
  | exited
  | paused
  | removing
  | restarting
  | running
deriving DecidableEq, BEq

/-- Embeds `struct Container` of src/models/docker_compose.rs. -/
structure Container where
  name : String
  state : ContainerState
deriving DecidableEq

/-! ## Project status model (src/models/project.rs) -/

/-- Embeds `enum ProjectStatus` of src/models/project.rs (field names
`active_containers`/`total_containers` become positional `Nat` arguments). -/
inductive ProjectStatus where
  | running (activeContainers totalContainers : Nat)
  | stopped
  | partiallyRunning (activeContainers totalContainers : Nat)
  | creationInProgress
  | deploymentFailed (reason : String)
  | unknown
deriving DecidableEq

/-- Embeds `ProjectStatus::from_container_counts` (src/models/project.rs,
lines 31-44): a match on the pair `(active, total)` whose third arm carries
the guard `active == total`. -/
def ProjectStatus.fromContainerCounts (active total : Nat) : ProjectStatus :=
  match active, total with
  | 0, 0 => ProjectStatus.unknown
  | 0, _ => ProjectStatus.stopped
  | _, _ =>
    if active = total then ProjectStatus.running active total
    else ProjectStatus.partiallyRunning active total

/-- Embeds the `running` count of `determine_project_status_from`
(src/usecases/project.rs lines 296-304): `containers.iter().filter(|c|
c.state == ContainerState::Running).count()`. -/
def countRunning (containers : List Container) : Nat :=
  (containers.filter (fun c => c.state == ContainerState.running)).length

/-- Embeds `determine_project_status_from` (src/usecases/project.rs,
lines 296-304). -/
def determineProjectStatusFrom (containers : List Container) : ProjectStatus :=
  ProjectStatus.fromContainerCounts (countRunning containers) containers.length

/-! ## ProjectName (src/models/project.rs) -/

/-- Rust `char::is_whitespace`: the Unicode White_Space property
(U+0009..U+000D, U+0020, U+0085, U+00A0, U+1680, U+2000..U+200A, U+2028,
U+2029, U+202F, U+205F, U+3000). -/
def isRustWhitespace (c : Char) : Bool :=
  (0x09 ≤ c.toNat && c.toNat ≤ 0x0D) || c.toNat = 0x20 || c.toNat = 0x85 ||
  c.toNat = 0xA0 || c.toNat = 0x1680 ||
  (0x2000 ≤ c.toNat && c.toNat ≤ 0x200A) || c.toNat = 0x2028 ||
  c.toNat = 0x2029 || c.toNat = 0x202F || c.toNat = 0x205F || c.toNat = 0x3000

/-- Rust `str::trim`: drops leading and trailing whitespace characters. -/
def rustTrim (s : String) : String :=
  String.mk (((s.data.dropWhile isRustWhitespace).reverse.dropWhile
    isRustWhitespace).reverse)

/-- The path-hazard characters rejected by `ProjectName::new`
(src/models/project.rs line 88). -/
def invalidNameChars : List Char :=
  ['/', '\\', ':', '*', '?', '"', '<', '>', '|']

/-- Rust `name.contains(['/', '\\', ':', '*', '?', '"', '<', '>', '|'])`:
true when some character of `s` is one of the nine. -/
def containsInvalidChar (s : String) : Bool :=
  s.data.any (fun c => invalidNameChars.contains c)

/-- Embeds `struct ProjectName(String)` of src/models/project.rs. -/
structure ProjectName where
  val : String
deriving DecidableEq

/-- Embeds `ProjectName::new` (src/models/project.rs, lines 78-93).  Note
the source checks `name.trim().is_empty()` (not `name.is_empty()`) and
`name.len() > 100`, where Rust `str::len` is the UTF-8 byte length. -/
def ProjectName.new (name : String) : Except String ProjectName :=
  if (rustTrim name).isEmpty then
    Except.error "Project name cannot be empty"
  else if name.utf8ByteSize > 100 then
    Except.error "Project name cannot exceed 100 characters"
  else if containsInvalidChar name then
    Except.error "Project name contains invalid characters"
  else
    Except.ok ⟨name⟩

/-- Embeds `impl Display for ProjectName` (src/models/project.rs, lines
106-110): displays the inner string unchanged. -/
def ProjectName.display (n : ProjectName) : String := n.val

/-- Embeds the derived `Serialize` impl of `ProjectName`
(src/models/project.rs line 73: `#[derive(..., Serialize, ...)]` on the
newtype `ProjectName(String)`): serde serializes a newtype struct
transparently as its inner value, here the inner string. -/
def ProjectName.serializedForm (n : ProjectName) : String := n.val

/-- Whether an `Except` value is a success; models Rust `Result::is_ok`. -/
def isOkE {ε α : Type} : Except ε α → Bool
  | Except.ok _ => true
  | Except.error _ => false

/-! ## Rust `Iterator::collect::<Result<Vec<_>, _>>` -/

/-- Models Rust `collect::<Result<Vec<_>, _>>()`: succeeds with the list of
payloads when every element is `ok`, otherwise fails with the first error. -/
def collectResults {ε α : Type} : List (Except ε α) → Except ε (List α)
  | [] => Except.ok []
  | x :: xs =>
    match x with
    | Except.error e => Except.error e
    | Except.ok a =>
      match collectResults xs with
      | Except.error e => Except.error e
      | Except.ok rest => Except.ok (a :: rest)

/-- Models `iter().map(f).collect::<Result<Vec<_>, _>>()`. -/
def mapResults {ε α β : Type} (f : α → Except ε β) (l : List α) :
    Except ε (List β) :=
  collectResults (l.map f)

theorem collectResults_ok_iff {ε α : Type} (l : List (Except ε α)) :
    (∃ ys, collectResults l = Except.ok ys) ↔ ∀ x ∈ l, ∃ a, x = Except.ok a := by
  induction l with
  | nil => simp [collectResults]
  | cons x xs ih =>
    cases x with
    | error e =>
      simp only [collectResults]
      constructor
      · rintro ⟨ys, h⟩; cases h
      · intro h
        rcases h (Except.error e) (List.mem_cons_self _ _) with ⟨a, ha⟩
        cases ha
    | ok a =>
      simp only [collectResults]
      constructor
      · rintro ⟨ys, h⟩
        intro y hy
        rcases List.mem_cons.mp hy with rfl | hy
        · exact ⟨a, rfl⟩
        · cases hxs : collectResults xs with
          | error e => rw [hxs] at h; cases h
          | ok rest => exact (ih.mp ⟨rest, hxs⟩) y hy
      · intro h
        rcases ih.mpr (fun y hy => h y (List.mem_cons_of_mem _ hy)) with ⟨rest, hrest⟩
        rw [hrest]
        exact ⟨a :: rest, rfl⟩

theorem mapResults_ok_iff {ε α β : Type} (f : α → Except ε β) (l : List α) :
    (∃ ys, mapResults f l = Except.ok ys) ↔ ∀ x ∈ l, ∃ b, f x = Except.ok b := by
  unfold mapResults
  rw [collectResults_ok_iff]
  constructor
  · intro h x hx
    exact h (f x) (List.mem_map_of_mem f hx)
  · intro h y hy
    rcases List.mem_map.mp hy with ⟨x, hx, rfl⟩
    exact h x hx

theorem mapResults_length {ε α β : Type} (f : α → Except ε β) (l : List α)
    (ys : List β) (h : mapResults f l = Except.ok ys) : ys.length = l.length := by
  induction l generalizing ys with
  | nil => simp [mapResults, collectResults] at h; simp [h]
  | cons x xs ih =>
    simp only [mapResults, List.map_cons, collectResults] at h
    cases hx : f x with
    | error e => rw [hx] at h; cases h
    | ok b =>
      rw [hx] at h
      cases hxs : collectResults (xs.map f) with
      | error e => rw [hxs] at h; cases h
      | ok rest =>
        rw [hxs] at h
        cases h
        simp [ih rest hxs]

theorem mapResults_first_error {ε α β : Type} (f : α → Except ε β)
    {pre : List α} (a : α) (rest : List α) {e : ε}
    (hpre : ∀ x ∈ pre, ∃ v, f x = Except.ok v) (ha : f a = Except.error e) :
    mapResults f (pre ++ a :: rest) = Except.error e := by
  induction pre with
  | nil => simp [mapResults, collectResults, ha]
  | cons p ps ih =>
    rcases hpre p (List.mem_cons_self _ _) with ⟨v, hv⟩
    have ih2 := ih (fun x hx => hpre x (List.mem_cons_of_mem _ hx))
    simp only [mapResults, List.cons_append, List.map_cons, collectResults, hv,
      List.append_eq]
    simp only [mapResults] at ih2
    rw [ih2]

theorem mapResults_error_of_mem {ε α β : Type} (f : α → Except ε β)
    (l : List α) (x : α) (e : ε) (hx : x ∈ l) (hfx : f x = Except.error e) :
    ∃ e2 y, y ∈ l ∧ f y = Except.error e2 ∧ mapResults f l = Except.error e2 := by
  induction l with
  | nil => cases hx
  | cons p ps ih =>
    cases hfp : f p with
    | error e0 =>
      exact ⟨e0, p, List.mem_cons_self _ _, hfp, by
        simp [mapResults, collectResults, hfp]⟩
    | ok v =>
      rcases List.mem_cons.mp hx with rfl | hx2
      · rw [hfp] at hfx; cases hfx
      · rcases ih hx2 with ⟨e2, y, hy, hfy, hmr⟩
        refine ⟨e2, y, List.mem_cons_of_mem _ hy, hfy, ?_⟩
        simp only [mapResults, List.map_cons, collectResults, hfp]
        simp only [mapResults] at hmr
        rw [hmr]

theorem collectResults_mem_iff {ε α : Type} {l : List (Except ε α)}
    {ys : List α} (h : collectResults l = Except.ok ys) (c : α) :
    c ∈ ys ↔ Except.ok c ∈ l := by
  induction l generalizing ys with
  | nil =>
    simp only [collectResults] at h
    cases h
    simp
  | cons x xs ih =>
    cases x with
    | error e => simp [collectResults] at h
    | ok a =>
      simp only [collectResults] at h
      cases hxs : collectResults xs with
      | error e => rw [hxs] at h; cases h
      | ok rest =>
        rw [hxs] at h
        cases h
        simp [List.mem_cons, ih hxs]

theorem mapResults_error_pred {ε α β : Type} {P : ε → Prop}
    (f : α → Except ε β) (l : List α)
    (h : ∀ x ∈ l, ∀ e0, f x = Except.error e0 → P e0) {e : ε}
    (he : mapResults f l = Except.error e) : P e := by
  induction l with
  | nil => simp [mapResults, collectResults] at he
  | cons p ps ih =>
    cases hfp : f p with
    | error e0 =>
      simp only [mapResults, List.map_cons, collectResults, hfp] at he
      cases he
      exact h p (List.mem_cons_self _ _) _ hfp
    | ok v =>
      simp only [mapResults, List.map_cons, collectResults, hfp] at he
      cases hps : collectResults (ps.map f) with
      | error e1 =>
        rw [hps] at he
        cases he
        exact ih (fun x hx => h x (List.mem_cons_of_mem _ hx)) hps
      | ok rest => rw [hps] at he; cases he

/-! ## Remaining data model (src/models, src/errors, src/config) -/

/-- Embeds `struct GitSource` of src/models/git.rs: `path` is the
compose-file location relative to the repository root. -/
structure GitSource where
  url : String
  branch : String
  path : String
deriving DecidableEq

/-- Embeds `struct ProjectFile` of src/models/project.rs. -/
structure ProjectFile where
  name : String
  source : GitSource
deriving DecidableEq

/-- Embeds `enum ProjectUsecaseError` of src/errors/project.rs (lines 3-28),
which declares exactly `CreateProjectFailed`, `ListProjectsFailed`,
`InvalidPath`, `ProjectNotFound` and `ProjectFileReadFailed`.  The extra
variant `containerStatusCheckFailed` models the constructor expression
`ProjectUsecaseError::ContainerStatusCheckFailed { project_name, reason }`
written at the use site src/usecases/project.rs line 198, which is NOT
declared by the enum (the crate as given does not compile); it is included
so that the use site's behaviour can be stated. -/
inductive ProjectUsecaseError where
  | createProjectFailed (projectName reason : String)
  | listProjectsFailed (reason : String)
  | invalidPath (reason : String)
  | projectNotFound (projectName reason : String)
  | projectFileReadFailed (projectName reason : String)
  | containerStatusCheckFailed (projectName reason : String)
deriving DecidableEq

/-- Embeds `struct Project` of src/models/project.rs; the
`DateTime<Utc>` timestamp is modelled by its epoch value. -/
structure Project where
  name : ProjectName
  source : GitSource
  status : ProjectStatus
  lastUpdatedAt : Int
deriving DecidableEq

/-- Embeds `struct WorkspaceConfig` of src/config/mod.rs (the two
workspace roots). -/
structure WorkspaceConfig where
  manifestsRoot : String
  repositoriesRoot : String
deriving DecidableEq

/-! ## Paths.  `std::path::Path` is modelled for UTF-8 `/`-separated paths:
`join` appends a relative component, `parent` drops the last component,
`file_name` is the last component when it is a real name. -/

/-- Rust `Path::join` for a relative right operand. -/
def pathJoin (a b : String) : String := a ++ "/" ++ b

/-- Splits a character list at every occurrence of `sep` (the pieces, in
order, without the separators; n separators yield n+1 pieces). -/
def splitOnChar (sep : Char) : List Char → List (List Char)
  | [] => [[]]
  | c :: cs =>
    if c = sep then [] :: splitOnChar sep cs
    else
      match splitOnChar sep cs with
      | [] => [[c]]
      | r :: rs => (c :: r) :: rs

/-- The `/`-separated components of a path string. -/
def pathComponents (p : String) : List String :=
  (splitOnChar '/' p.data).map String.mk

/-- Joins components back with `/` separators. -/
def joinComponents : List String → String
  | [] => ""
  | [c] => c
  | c :: cs => c ++ "/" ++ joinComponents cs

/-- Rust `Path::parent` for `/`-separated paths. -/
def pathParent (p : String) : Option String :=
  let cs := pathComponents p
  if cs.length ≤ 1 then none else some (joinComponents cs.dropLast)

/-- Rust `Path::file_name` for `/`-separated paths. -/
def pathFileName (p : String) : Option String :=
  match (pathComponents p).getLast? with
  | none => none
  | some f => if f = "" || f = "." || f = ".." then none else some f

/-! ## Project orchestrator (src/usecases/project.rs) -/

/-- Embeds `struct ProjectFileLocations`. -/
structure ProjectFileLocations where
  manifestFile : String
  manifestFolder : String
  repositoryFolder : String
  composeFile : String
deriving DecidableEq

/-- Embeds `ProjectUsecase::get_project_file_locations` (src/usecases/
project.rs lines 101-127).  In the source the compose-file path conversion
can fail only for non-UTF-8 paths; paths are Lean `String`s here, so the
function is total. -/
def getProjectFileLocations (cfg : WorkspaceConfig) (pf : ProjectFile) :
    ProjectFileLocations :=
  let projectDir := pathJoin cfg.manifestsRoot pf.name
  { manifestFile := pathJoin projectDir "project.yaml"
    manifestFolder := projectDir
    repositoryFolder := pathJoin cfg.repositoriesRoot pf.name
    composeFile := pathJoin (pathJoin cfg.repositoriesRoot pf.name) pf.source.path }

/-- Embeds `validate_create_project_params` (src/usecases/project.rs lines
207-232): ProjectName validation first, then non-empty (after trim) git URL
and branch. -/
def validateCreateProjectParams (pf : ProjectFile) :
    Except ProjectUsecaseError Unit :=
  match ProjectName.new pf.name with
  | Except.error e =>
    Except.error (ProjectUsecaseError.createProjectFailed pf.name e)
  | Except.ok _ =>
    if (rustTrim pf.source.url).isEmpty then
      Except.error (ProjectUsecaseError.createProjectFailed pf.name
        "Git URL cannot be empty")
    else if (rustTrim pf.source.branch).isEmpty then
      Except.error (ProjectUsecaseError.createProjectFailed pf.name
        "Git branch cannot be empty")
    else
      Except.ok ()

/-- The externally visible effects of `create_project`, in program order. -/
inductive CreateAction where
  | createDirs (manifestFolder repositoryFolder : String)
  | writeManifest (dest : String)
  | spawnDetached (source : GitSource) (repositoryFolder composeFile : String)
deriving DecidableEq

/-- Oracle for the I/O performed by `create_project`: the outcome of
`fs::create_dir_all` on the two directories, of `serde_yaml::to_string`, of
`fs::write`, and of the detached unit's `clone_repository` and compose
`up` (the latter two are recorded but, like the source's `let _ = ...`,
never consulted). -/
structure CreateEnv where
  createDirs : String → String → Except String Unit
  serializeYaml : ProjectFile → Except String String
  writeFile : String → String → Except String Unit
  cloneResult : Except String Unit
  upResult : Except String Unit

/-- Embeds `write_project_definition_file` (src/usecases/project.rs lines
243-246): serialize to YAML, then write. -/
def writeProjectDefinitionFile (env : CreateEnv) (pf : ProjectFile)
    (dest : String) : Except String Unit :=
  match env.serializeYaml pf with
  | Except.error e => Except.error e
  | Except.ok yaml => env.writeFile dest yaml

/-- Embeds `ProjectUsecase::create_project` (src/usecases/project.rs lines
47-91): validate, create directories, write the manifest, then spawn the
detached clone + compose-up unit whose results are discarded.  Returns the
call's result together with the list of performed external actions. -/
def createProject (cfg : WorkspaceConfig) (env : CreateEnv)
    (pf : ProjectFile) : Except ProjectUsecaseError Unit × List CreateAction :=
  match validateCreateProjectParams pf with
  | Except.error e => (Except.error e, [])
  | Except.ok _ =>
    let locs := getProjectFileLocations cfg pf
    match env.createDirs locs.manifestFolder locs.repositoryFolder with
    | Except.error e =>
      (Except.error (ProjectUsecaseError.createProjectFailed
        ((pathFileName locs.manifestFolder).getD "unknown") e),
       [CreateAction.createDirs locs.manifestFolder locs.repositoryFolder])
    | Except.ok _ =>
      match writeProjectDefinitionFile env pf locs.manifestFile with
      | Except.error e =>
        (Except.error (ProjectUsecaseError.createProjectFailed pf.name e),
         [CreateAction.createDirs locs.manifestFolder locs.repositoryFolder,
          CreateAction.writeManifest locs.manifestFile])
      | Except.ok _ =>
        (Except.ok (),
         [CreateAction.createDirs locs.manifestFolder locs.repositoryFolder,
          CreateAction.writeManifest locs.manifestFile,
          CreateAction.spawnDetached pf.source locs.repositoryFolder
            locs.composeFile])

/-- Oracle for the I/O performed by `list_projects`: the result of reading
each discovered `*.yml`/`*.yaml` manifest file (in discovery order), the
result of `serde_yaml::from_str` on a manifest's content, the compose
collaborator's `list_containers` keyed by compose-file path (its error
already displayed as a string), and the git collaborator's
`get_last_commit_timestamp` keyed by repository folder. -/
structure ListEnv where
  reads : List (Except String String)
  parseProjectFile : String → Except String ProjectFile
  composeListContainers : String → Except String (List Container)
  gitLastCommitTimestamp : String → Except String Int

/-- Embeds `find_all_project_files_in` (src/usecases/project.rs lines
269-281): collect every read result, then parse every content. -/
def findAllProjectFilesIn (env : ListEnv) : Except String (List ProjectFile) :=
  match collectResults env.reads with
  | Except.error e => Except.error e
  | Except.ok contents => mapResults env.parseProjectFile contents

/-- Embeds `discover_all_project_files_in` (src/usecases/project.rs lines
248-267): any discovery failure becomes `ListProjectsFailed{reason}`. -/
def discoverAllProjectFilesIn (env : ListEnv) :
    Except ProjectUsecaseError (List ProjectFile) :=
  match findAllProjectFilesIn env with
  | Except.error e => Except.error (ProjectUsecaseError.listProjectsFailed e)
  | Except.ok fs => Except.ok fs

/-- Embeds `ProjectUsecase::container_status_for` (src/usecases/project.rs
lines 188-204).  A `list_containers` failure is mapped to the constructor
expression `ProjectUsecaseError::ContainerStatusCheckFailed`, written at
line 198 though undeclared in the error enum. -/
def containerStatusFor (env : ListEnv) (composeFilePath : String) :
    Except ProjectUsecaseError ProjectStatus :=
  let projectName :=
    ((pathParent composeFilePath).bind pathFileName).getD "unknown"
  match env.composeListContainers composeFilePath with
  | Except.error e =>
    Except.error (ProjectUsecaseError.containerStatusCheckFailed projectName e)
  | Except.ok cs => Except.ok (determineProjectStatusFrom cs)

/-- Embeds `ProjectUsecase::determine_current_project_status`
(src/usecases/project.rs lines 163-169). -/
def determineCurrentProjectStatus (cfg : WorkspaceConfig) (env : ListEnv)
    (pf : ProjectFile) : Except ProjectUsecaseError ProjectStatus :=
  containerStatusFor env (getProjectFileLocations cfg pf).composeFile

/-- Embeds `ProjectUsecase::get_last_repository_update_timestamp`
(src/usecases/project.rs lines 171-186). -/
def getLastRepositoryUpdateTimestamp (cfg : WorkspaceConfig) (env : ListEnv)
    (pf : ProjectFile) : Except ProjectUsecaseError Int :=
  match env.gitLastCommitTimestamp (pathJoin cfg.repositoriesRoot pf.name) with
  | Except.error e =>
    Except.error (ProjectUsecaseError.projectNotFound pf.name
      ("Git repository information unavailable: " ++ e))
  | Except.ok t => Except.ok t

/-- Embeds `ProjectUsecase::build_project_from` (src/usecases/project.rs
lines 143-161): status, then timestamp, then re-validation of the name. -/
def buildProjectFrom (cfg : WorkspaceConfig) (env : ListEnv)
    (pf : ProjectFile) : Except ProjectUsecaseError Project :=
  match determineCurrentProjectStatus cfg env pf with
  | Except.error e => Except.error e
  | Except.ok status =>
    match getLastRepositoryUpdateTimestamp cfg env pf with
    | Except.error e => Except.error e
    | Except.ok ts =>
      match ProjectName.new pf.name with
      | Except.error e => Except.error (ProjectUsecaseError.invalidPath e)
      | Except.ok n => Except.ok ⟨n, pf.source, status, ts⟩

/-- Embeds `ProjectUsecase::build_projects_from` (src/usecases/project.rs
lines 129-141). -/
def buildProjectsFrom (cfg : WorkspaceConfig) (env : ListEnv)
    (pfs : List ProjectFile) : Except ProjectUsecaseError (List Project) :=
  mapResults (buildProjectFrom cfg env) pfs

/-- Embeds `ProjectUsecase::list_projects` (src/usecases/project.rs lines
93-99): discovery, then enrichment. -/
def listProjects (cfg : WorkspaceConfig) (env : ListEnv) :
    Except ProjectUsecaseError (List Project) :=
  match discoverAllProjectFilesIn env with
  | Except.error e => Except.error e
  | Except.ok pfs => buildProjectsFrom cfg env pfs

/-! ## Docker compose client (src/repositories/docker_compose_client.rs) -/

/-- Embeds `enum DockerComposeError` of src/errors/docker_compose.rs. -/
inductive DockerComposeError where
  | upFailed (path reason : String)
  | downFailed (path reason : String)
  | listContainersFailed (path reason : String)
  | composeFileNotFound (path : String)
deriving DecidableEq

/-- What the filesystem says about a path: absent, a regular file, or
present but not a regular file (a directory); models `Path::exists` and
`Path::is_file`. -/
inductive PathKind where
  | missing
  | file
  | directory
deriving DecidableEq

/-- Captured output of an external process; models `std::process::Output`
(`status.success()`, stdout, stderr). -/
structure CmdOutput where
  exitSuccess : Bool
  stdout : String
  stderr : String

/-- Embeds `validate_compose_file_exists_and_not_directory`
(src/repositories/docker_compose_client.rs lines 31-50): absence and
non-regular-file both yield `ComposeFileNotFound{path}`. -/
def validateComposeFileExistsAndNotDirectory (fs : String → PathKind)
    (filePath : String) : Except DockerComposeError Unit :=
  match fs filePath with
  | PathKind.missing =>
    Except.error (DockerComposeError.composeFileNotFound filePath)
  | PathKind.directory =>
    Except.error (DockerComposeError.composeFileNotFound filePath)
  | PathKind.file => Except.ok ()

/-- Embeds `get_working_dir_and_file_name_from` (src/repositories/
docker_compose_client.rs lines 52-80): the parent directory (or "." when
there is none) and the file name (no extractable file name is a
`ComposeFileNotFound`). -/
def getWorkingDirAndFileNameFrom (composeFilePath : String) :
    Except DockerComposeError (String × String) :=
  let workingDir := (pathParent composeFilePath).getD "."
  match pathFileName composeFilePath with
  | none =>
    Except.error (DockerComposeError.composeFileNotFound composeFilePath)
  | some filename => Except.ok (workingDir, filename)

/-- A JSON value as `serde_json::Value` models one. -/
inductive JValue where
  | str (s : String)
  | num (n : Int)
  | jbool (b : Bool)
  | null
  | arr (xs : List JValue)
  | obj (fields : List (String × JValue))

/-- `serde_json::Value::get(field)`: field lookup on an object, `none` on
every other value. -/
def jGet (v : JValue) (field : String) : Option JValue :=
  match v with
  | JValue.obj fields => (fields.find? (fun f => f.1 == field)).map (fun f => f.2)
  | _ => none

/-- `serde_json::Value::as_str`. -/
def jAsStr : JValue → Option String
  | JValue.str s => some s
  | _ => none

/-- Embeds `extract_json_string_field` (src/repositories/
docker_compose_client.rs lines 104-121). -/
def extractJsonStringField (json : JValue) (field : String) (path : String) :
    Except DockerComposeError String :=
  match (jGet json field).bind jAsStr with
  | some s => Except.ok s
  | none =>
    Except.error (DockerComposeError.listContainersFailed path
      ("Missing '" ++ field ++ "' field in Docker compose output"))

/-- Embeds `parse_container_state` (src/repositories/
docker_compose_client.rs lines 123-145): exactly the seven lowercase
tokens, in the source's match order; anything else fails the call. -/
def parseContainerState (stateStr : String) (path : String) :
    Except DockerComposeError ContainerState :=
  if stateStr = "paused" then Except.ok ContainerState.paused
  else if stateStr = "restarting" then Except.ok ContainerState.restarting
  else if stateStr = "removing" then Except.ok ContainerState.removing
  else if stateStr = "running" then Except.ok ContainerState.running
  else if stateStr = "dead" then Except.ok ContainerState.dead
  else if stateStr = "created" then Except.ok ContainerState.created
  else if stateStr = "exited" then Except.ok ContainerState.exited
  else
    Except.error (DockerComposeError.listContainersFailed path
      ("Unknown container state: " ++ stateStr))

/-- Embeds `parse_container_json` (src/repositories/
docker_compose_client.rs lines 82-102); `jp` is the oracle for
`serde_json::from_str`. -/
def parseContainerJson (jp : String → Except String JValue) (path : String)
    (jsonLine : String) : Except DockerComposeError Container :=
  match jp jsonLine with
  | Except.error e =>
    Except.error (DockerComposeError.listContainersFailed path
      ("Failed to parse Docker compose output: Parsing container JSON from file '"
        ++ path ++ "': " ++ e))
  | Except.ok v =>
    match extractJsonStringField v "Name" path with
    | Except.error e => Except.error e
    | Except.ok name =>
      match extractJsonStringField v "State" path with
      | Except.error e => Except.error e
      | Except.ok stateStr =>
        match parseContainerState stateStr path with
        | Except.error e => Except.error e
        | Except.ok st => Except.ok ⟨name, st⟩

/-- The last element of a character list dropped when it is a carriage
return (Rust `str::lines` strips a `\r\n` terminator). -/
def stripTrailingCR (l : List Char) : List Char :=
  match l.getLast? with
  | some c => if c = '\r' then l.dropLast else l
  | none => l

/-- Rust `str::lines`: split on `\n`, drop the final empty piece produced
by a trailing newline, strip a trailing `\r` from each line. -/
def rustLines (s : String) : List String :=
  let parts := splitOnChar '\n' s.data
  let parts2 :=
    match parts.getLast? with
    | some [] => parts.dropLast
    | _ => parts
  parts2.map (fun l => String.mk (stripTrailingCR l))

/-- The non-blank lines of the compose tool's standard output
(src/repositories/docker_compose_client.rs lines 256-261:
`.lines().filter(|line| !line.trim().is_empty())`). -/
def nonBlankLines (s : String) : List String :=
  (rustLines s).filter (fun l => !(rustTrim l).isEmpty)

/-- Embeds `DockerComposeClient::up` (src/repositories/
docker_compose_client.rs lines 152-182); `fs` and `exec` are the filesystem
and process oracles, and the second component lists the docker invocations
performed (argument vector and working directory). -/
def composeUp (fs : String → PathKind)
    (exec : List String → String → Except String CmdOutput)
    (composeFilePath : String) :
    Except DockerComposeError Unit × List (List String × String) :=
  match validateComposeFileExistsAndNotDirectory fs composeFilePath with
  | Except.error e => (Except.error e, [])
  | Except.ok _ =>
    match getWorkingDirAndFileNameFrom composeFilePath with
    | Except.error e => (Except.error e, [])
    | Except.ok (workingDir, filename) =>
      let args := ["compose", "-f", filename, "up", "-d"]
      match exec args workingDir with
      | Except.error e =>
        (Except.error (DockerComposeError.upFailed composeFilePath
          ("Failed to execute docker compose up command: " ++ e)),
         [(args, workingDir)])
      | Except.ok out =>
        if out.exitSuccess then (Except.ok (), [(args, workingDir)])
        else
          (Except.error (DockerComposeError.upFailed composeFilePath
            ("Docker compose up failed: " ++ out.stderr)),
           [(args, workingDir)])

/-- Embeds `DockerComposeClient::down` (src/repositories/
docker_compose_client.rs lines 184-214). -/
def composeDown (fs : String → PathKind)
    (exec : List String → String → Except String CmdOutput)
    (composeFilePath : String) :
    Except DockerComposeError Unit × List (List String × String) :=
  match validateComposeFileExistsAndNotDirectory fs composeFilePath with
  | Except.error e => (Except.error e, [])
  | Except.ok _ =>
    match getWorkingDirAndFileNameFrom composeFilePath with
    | Except.error e => (Except.error e, [])
    | Except.ok (workingDir, filename) =>
      let args := ["compose", "-f", filename, "down"]
      match exec args workingDir with
      | Except.error e =>
        (Except.error (DockerComposeError.downFailed composeFilePath
          ("Failed to execute docker compose down command: " ++ e)),
         [(args, workingDir)])
      | Except.ok out =>
        if out.exitSuccess then (Except.ok (), [(args, workingDir)])
        else
          (Except.error (DockerComposeError.downFailed composeFilePath
            ("Docker compose down failed: " ++ out.stderr)),
           [(args, workingDir)])

/-- Embeds `DockerComposeClient::list_containers` (src/repositories/
docker_compose_client.rs lines 216-262): validate, run
`docker compose ps --all --format json`, then parse each non-blank stdout
line; `jp` is the `serde_json::from_str` oracle. -/
def listContainers (fs : String → PathKind)
    (exec : List String → String → Except String CmdOutput)
    (jp : String → Except String JValue) (composeFilePath : String) :
    Except DockerComposeError (List Container) × List (List String × String) :=
  match validateComposeFileExistsAndNotDirectory fs composeFilePath with
  | Except.error e => (Except.error e, [])
  | Except.ok _ =>
    match getWorkingDirAndFileNameFrom composeFilePath with
    | Except.error e => (Except.error e, [])
    | Except.ok (workingDir, filename) =>
      let args := ["compose", "-f", filename, "ps", "--all", "--format", "json"]
      match exec args workingDir with
      | Except.error e =>
        (Except.error (DockerComposeError.listContainersFailed composeFilePath
          ("Failed to execute docker compose ps command: Executing 'docker compose ps' using '"
            ++ composeFilePath ++ "': " ++ e)),
         [(args, workingDir)])
      | Except.ok out =>
        if out.exitSuccess then
          (mapResults (parseContainerJson jp composeFilePath)
            (nonBlankLines out.stdout),
           [(args, workingDir)])
        else
          (Except.error (DockerComposeError.listContainersFailed composeFilePath
            ("Docker compose ps command returned non-zero exit status: "
              ++ out.stderr)),
           [(args, workingDir)])

/-! ## Theorems -/

/-- C1: the status-derivation function is total over container-state lists
(it is a Lean function on `List Container`) and returns `unknown` on the
empty list, `stopped` on a non-empty list with zero running containers,
`running (active, total)` when the running count equals the list length, and
`partiallyRunning (active, total)` otherwise; the five concrete examples of
the spec evaluate as stated. -/
theorem derive_status_characterization :
    (∀ cs : List Container,
      determineProjectStatusFrom cs =
        (if cs.length = 0 then ProjectStatus.unknown
         else if countRunning cs = 0 then ProjectStatus.stopped
         else if countRunning cs = cs.length then
           ProjectStatus.running (countRunning cs) cs.length
         else ProjectStatus.partiallyRunning (countRunning cs) cs.length))
    ∧ determineProjectStatusFrom [] = ProjectStatus.unknown
    ∧ determineProjectStatusFrom
        [⟨"s1", ContainerState.exited⟩, ⟨"s2", ContainerState.exited⟩] =
        ProjectStatus.stopped
    ∧ determineProjectStatusFrom
        [⟨"s1", ContainerState.running⟩, ⟨"s2", ContainerState.running⟩] =
        ProjectStatus.running 2 2
    ∧ determineProjectStatusFrom
        [⟨"s1", ContainerState.running⟩, ⟨"s2", ContainerState.exited⟩] =
        ProjectStatus.partiallyRunning 1 2
    ∧ determineProjectStatusFrom
        [⟨"s1", ContainerState.running⟩, ⟨"s2", ContainerState.exited⟩,
         ⟨"s3", ContainerState.running⟩] =
        ProjectStatus.partiallyRunning 2 3 := by
  refine ⟨?_, by decide, by decide, by decide, by decide, by decide⟩
  intro cs
  cases cs with
  | nil => decide
  | cons c t =>
    simp only [determineProjectStatusFrom, List.length_cons,
      Nat.succ_ne_zero, if_false]
    rcases h : countRunning (c :: t) with _ | r
    · simp [ProjectStatus.fromContainerCounts, h]
    · simp only [ProjectStatus.fromContainerCounts, h]
      split_ifs with h1 <;> simp_all

/-- C2 counterexample: the claim says `ProjectName::new` rejects only the
empty string, strings longer than 100 characters and strings with a
path-hazard character, and succeeds on every other string.  The code also
rejects the whitespace-only string " " (its `trim()` is empty) and the
51-character string of repeated U+00E9 (its UTF-8 byte length is 102 > 100,
though it has only 51 characters), refuting the claim at those inputs. -/
theorem projectName_new_counterexample :
    (" " ≠ "" ∧ (" " : String).length ≤ 100 ∧ containsInvalidChar " " = false
      ∧ isOkE (ProjectName.new " ") = false)
    ∧ (String.mk (List.replicate 51 'é') ≠ ""
      ∧ (String.mk (List.replicate 51 'é')).length ≤ 100
      ∧ containsInvalidChar (String.mk (List.replicate 51 'é')) = false
      ∧ isOkE (ProjectName.new (String.mk (List.replicate 51 'é'))) = false) := by
  refine ⟨⟨?_, by decide, by decide, by decide⟩, ⟨?_, by decide, by decide, by decide⟩⟩
  · decide
  · decide

/-- C2 (amended): `ProjectName::new` rejects every string whose
whitespace-trimmed form is empty (hence the empty string and every
whitespace-only string), every string whose UTF-8 byte length exceeds 100
(hence every string of more than 100 characters), and every string
containing one of the nine path-hazard characters; for every other string
it succeeds, and on success the constructed value's display form and its
serialized form both equal the input string (construction is the only
validation point); the spec's examples evaluate as stated. -/
theorem projectName_new_spec :
    (∀ s : String,
      isOkE (ProjectName.new s) = true ↔
        ((rustTrim s).isEmpty = false ∧ s.utf8ByteSize ≤ 100
          ∧ containsInvalidChar s = false))
    ∧ (∀ s : String, ∀ pn : ProjectName,
        ProjectName.new s = Except.ok pn →
          ProjectName.display pn = s ∧ ProjectName.serializedForm pn = s)
    ∧ isOkE (ProjectName.new "") = false
    ∧ isOkE (ProjectName.new "a/b") = false
    ∧ isOkE (ProjectName.new (String.mk (List.replicate 101 'x'))) = false
    ∧ ProjectName.new "valid-name" = Except.ok ⟨"valid-name"⟩ := by
  refine ⟨?_, ?_, by decide, by decide, by decide, by rfl⟩
  · intro s
    unfold ProjectName.new
    split_ifs with h1 h2 h3 <;> simp_all [isOkE]
  · intro s pn h
    unfold ProjectName.new at h
    split_ifs at h
    cases h
    exact ⟨rfl, rfl⟩

/-- C2 witness: the amended characterization applied at "valid-name". -/
theorem projectName_new_spec_witness :
    isOkE (ProjectName.new "valid-name") = true :=
  (projectName_new_spec.1 "valid-name").mpr (by decide)

/-- C3: for every ProjectFile whose name fails ProjectName validation or
whose git URL or branch is empty, `create_project` returns a
`CreateProjectFailed` error and performs no external action at all (no
directory creation, no manifest write, no detached work): validation
violations fail fast ahead of every filesystem, git or compose action. -/
theorem create_project_validation_fails_fast :
    ∀ (cfg : WorkspaceConfig) (env : CreateEnv) (pf : ProjectFile),
      (isOkE (ProjectName.new pf.name) = false ∨ pf.source.url = ""
        ∨ pf.source.branch = "") →
      ∃ n r, createProject cfg env pf =
        (Except.error (ProjectUsecaseError.createProjectFailed n r), []) := by
  intro cfg env pf h
  have hv : ∃ n r, validateCreateProjectParams pf =
      Except.error (ProjectUsecaseError.createProjectFailed n r) := by
    unfold validateCreateProjectParams
    cases hn : ProjectName.new pf.name with
    | error e => exact ⟨_, _, rfl⟩
    | ok v =>
      split_ifs with h1 h2
      · exact ⟨_, _, rfl⟩
      · exact ⟨_, _, rfl⟩
      · rcases h with h | h | h
        · rw [hn] at h; simp [isOkE] at h
        · rw [h] at h1
          exact absurd (by decide : (rustTrim "").isEmpty = true) h1
        · rw [h] at h2
          exact absurd (by decide : (rustTrim "").isEmpty = true) h2
  rcases hv with ⟨n, r, hv⟩
  refine ⟨n, r, ?_⟩
  unfold createProject
  rw [hv]

/-- C3 witness: the fail-fast theorem applied to a project file whose name
contains a slash. -/
theorem create_project_validation_fails_fast_witness :
    ∃ n r,
      createProject ⟨"/w/projects", "/w/repos"⟩
        ⟨fun _ _ => Except.ok (), fun _ => Except.ok "", fun _ _ => Except.ok (),
         Except.ok (), Except.ok ()⟩
        ⟨"a/b", ⟨"https://e/x.git", "main", "docker-compose.yml"⟩⟩ =
      (Except.error (ProjectUsecaseError.createProjectFailed n r), []) :=
  create_project_validation_fails_fast _ _ _ (Or.inl (by decide))

/-- C4: for every ProjectFile, the result of `create_project` is
independent of the outcomes of the detached clone and compose-up unit (two
runs differing only in those outcomes return the same value), and when
validation, directory creation and the manifest write succeed the call
returns success whatever the detached unit's outcomes are. -/
theorem create_project_detached_independence :
    ∀ (cfg : WorkspaceConfig) (pf : ProjectFile)
      (cd : String → String → Except String Unit)
      (sz : ProjectFile → Except String String)
      (wf : String → String → Except String Unit)
      (c1 u1 c2 u2 : Except String Unit),
      createProject cfg ⟨cd, sz, wf, c1, u1⟩ pf =
        createProject cfg ⟨cd, sz, wf, c2, u2⟩ pf
      ∧ (validateCreateProjectParams pf = Except.ok () →
         cd (getProjectFileLocations cfg pf).manifestFolder
           (getProjectFileLocations cfg pf).repositoryFolder = Except.ok () →
         writeProjectDefinitionFile ⟨cd, sz, wf, c1, u1⟩ pf
           (getProjectFileLocations cfg pf).manifestFile = Except.ok () →
         (createProject cfg ⟨cd, sz, wf, c1, u1⟩ pf).1 = Except.ok ()) := by
  intro cfg pf cd sz wf c1 u1 c2 u2
  constructor
  · rfl
  · intro h1 h2 h3
    unfold createProject
    rw [h1]
    simp only []
    rw [h2, h3]

/-- C4 witness: the independence theorem applied to a run whose detached
clone and compose-up both fail while the synchronous prefix succeeds. -/
theorem create_project_detached_independence_witness :
    (createProject ⟨"/w/projects", "/w/repos"⟩
      ⟨fun _ _ => Except.ok (), fun _ => Except.ok "yaml",
       fun _ _ => Except.ok (), Except.error "clone failed",
       Except.error "up failed"⟩
      ⟨"proj", ⟨"https://e/x.git", "main", "docker-compose.yml"⟩⟩).1 =
    Except.ok () :=
  (create_project_detached_independence ⟨"/w/projects", "/w/repos"⟩
    ⟨"proj", ⟨"https://e/x.git", "main", "docker-compose.yml"⟩⟩
    (fun _ _ => Except.ok ()) (fun _ => Except.ok "yaml")
    (fun _ _ => Except.ok ()) (Except.error "clone failed")
    (Except.error "up failed") (Except.ok ()) (Except.ok ())).2
    (by rfl) (by rfl) (by rfl)

/-- C5: if reading or parsing any discovered manifest fails, `list_projects`
fails with `ListProjectsFailed` for the whole call (no partial list), and
discovery succeeds exactly when every discovered manifest both reads and
parses; a successful `list_projects` call implies every manifest read and
parsed. -/
theorem list_projects_all_or_nothing :
    ∀ (cfg : WorkspaceConfig) (env : ListEnv),
      ((∃ e, Except.error e ∈ env.reads) →
        ∃ r, listProjects cfg env =
          Except.error (ProjectUsecaseError.listProjectsFailed r))
      ∧ ((∃ c, Except.ok c ∈ env.reads
            ∧ ∀ pf, env.parseProjectFile c ≠ Except.ok pf) →
        ∃ r, listProjects cfg env =
          Except.error (ProjectUsecaseError.listProjectsFailed r))
      ∧ ((∃ fs, discoverAllProjectFilesIn env = Except.ok fs) ↔
          ∀ x ∈ env.reads, ∃ c, x = Except.ok c
            ∧ ∃ pf, env.parseProjectFile c = Except.ok pf)
      ∧ (∀ ps, listProjects cfg env = Except.ok ps →
          ∀ x ∈ env.reads, ∃ c, x = Except.ok c
            ∧ ∃ pf, env.parseProjectFile c = Except.ok pf) := by
  intro cfg env
  have h3 : (∃ fs, discoverAllProjectFilesIn env = Except.ok fs) ↔
      ∀ x ∈ env.reads, ∃ c, x = Except.ok c
        ∧ ∃ pf, env.parseProjectFile c = Except.ok pf := by
    constructor
    · rintro ⟨fs, hfs⟩ x hx
      unfold discoverAllProjectFilesIn at hfs
      cases hfa : findAllProjectFilesIn env with
      | error e => rw [hfa] at hfs; cases hfs
      | ok fs2 =>
        unfold findAllProjectFilesIn at hfa
        cases hc : collectResults env.reads with
        | error e => rw [hc] at hfa; cases hfa
        | ok contents =>
          rw [hc] at hfa
          rcases (collectResults_ok_iff env.reads).mp ⟨contents, hc⟩ x hx with
            ⟨cch, hcch⟩
          refine ⟨cch, hcch, ?_⟩
          have hmemc : cch ∈ contents :=
            (collectResults_mem_iff hc cch).mpr (hcch ▸ hx)
          exact (mapResults_ok_iff env.parseProjectFile contents).mp
            ⟨fs2, hfa⟩ cch hmemc
    · intro hall
      rcases (collectResults_ok_iff env.reads).mpr
          (fun x hx => by rcases hall x hx with ⟨c, rfl, _⟩; exact ⟨c, rfl⟩) with
        ⟨contents, hc⟩
      rcases (mapResults_ok_iff env.parseProjectFile contents).mpr
          (fun c hcmem => by
            rcases hall _ ((collectResults_mem_iff hc c).mp hcmem) with
              ⟨c2, hc2, pf, hpf⟩
            cases hc2
            exact ⟨pf, hpf⟩) with ⟨fs, hfs⟩
      exact ⟨fs, by
        simp [discoverAllProjectFilesIn, findAllProjectFilesIn, hc, hfs]⟩
  refine ⟨?_, ?_, h3, ?_⟩
  · rintro ⟨e, he⟩
    cases hc : collectResults env.reads with
    | error e2 =>
      exact ⟨e2, by
        simp [listProjects, discoverAllProjectFilesIn, findAllProjectFilesIn, hc]⟩
    | ok contents =>
      rcases (collectResults_ok_iff env.reads).mp ⟨contents, hc⟩
          (Except.error e) he with ⟨a, ha⟩
      cases ha
  · rintro ⟨c, hcmem, hparse⟩
    cases hc : collectResults env.reads with
    | error e2 =>
      exact ⟨e2, by
        simp [listProjects, discoverAllProjectFilesIn, findAllProjectFilesIn, hc]⟩
    | ok contents =>
      have hmem : c ∈ contents := (collectResults_mem_iff hc c).mpr hcmem
      have hpe : ∃ e0, env.parseProjectFile c = Except.error e0 := by
        cases hp : env.parseProjectFile c with
        | ok pf => exact absurd hp (hparse pf)
        | error e0 => exact ⟨e0, rfl⟩
      rcases hpe with ⟨e0, he0⟩
      rcases mapResults_error_of_mem env.parseProjectFile contents c e0 hmem
          he0 with ⟨e2, y, hy, hfy, hmr⟩
      exact ⟨e2, by
        simp [listProjects, discoverAllProjectFilesIn, findAllProjectFilesIn,
          hc, hmr]⟩
  · intro ps hps x hx
    cases hd : discoverAllProjectFilesIn env with
    | error e => simp [listProjects, hd] at hps
    | ok fs => exact h3.mp ⟨fs, hd⟩ x hx

/-- C5 witness: the all-or-nothing theorem applied to a workspace whose one
manifest read fails. -/
theorem list_projects_all_or_nothing_witness :
    ∃ r,
      listProjects ⟨"/w/projects", "/w/repos"⟩
        ⟨[Except.error "permission denied"],
         fun _ => Except.error "unparsed",
         fun _ => Except.ok [], fun _ => Except.ok 0⟩ =
      Except.error (ProjectUsecaseError.listProjectsFailed r) :=
  (list_projects_all_or_nothing ⟨"/w/projects", "/w/repos"⟩
    ⟨[Except.error "permission denied"], fun _ => Except.error "unparsed",
     fun _ => Except.ok [], fun _ => Except.ok 0⟩).1
    ⟨"permission denied", by simp⟩

/-- C6: if obtaining the last git commit timestamp fails (with message `e`)
for a discovered project whose predecessors in discovery order all enrich
successfully and whose container status succeeds, `list_projects` returns
`ProjectNotFound` carrying that project's name (and the wrapped git reason)
and aborts the whole listing with no partial results. -/
theorem list_projects_git_timestamp_failure :
    ∀ (cfg : WorkspaceConfig) (env : ListEnv) (pre : List ProjectFile)
      (pf : ProjectFile) (rest : List ProjectFile) (e : String)
      (cs : List Container),
      discoverAllProjectFilesIn env = Except.ok (pre ++ pf :: rest) →
      (∀ q ∈ pre, ∃ p, buildProjectFrom cfg env q = Except.ok p) →
      env.composeListContainers
        (getProjectFileLocations cfg pf).composeFile = Except.ok cs →
      env.gitLastCommitTimestamp (pathJoin cfg.repositoriesRoot pf.name) =
        Except.error e →
      listProjects cfg env = Except.error
        (ProjectUsecaseError.projectNotFound pf.name
          ("Git repository information unavailable: " ++ e)) := by
  intro cfg env pre pf rest e cs hdisc hpre hcomp hgit
  have hbuild : buildProjectFrom cfg env pf = Except.error
      (ProjectUsecaseError.projectNotFound pf.name
        ("Git repository information unavailable: " ++ e)) := by
    simp only [buildProjectFrom, determineCurrentProjectStatus,
      containerStatusFor, getLastRepositoryUpdateTimestamp, hcomp, hgit]
  unfold listProjects
  rw [hdisc]
  exact mapResults_first_error _ pf rest hpre hbuild

/-- C6 witness: a one-project workspace whose git metadata is unavailable. -/
theorem list_projects_git_timestamp_failure_witness :
    listProjects ⟨"/w/projects", "/w/repos"⟩
      ⟨[Except.ok "manifest"],
       fun _ => Except.ok ⟨"foo", ⟨"https://e/x.git", "main",
         "docker-compose.yml"⟩⟩,
       fun _ => Except.ok [], fun _ => Except.error "no repo"⟩ =
    Except.error (ProjectUsecaseError.projectNotFound "foo"
      "Git repository information unavailable: no repo") :=
  list_projects_git_timestamp_failure ⟨"/w/projects", "/w/repos"⟩
    ⟨[Except.ok "manifest"],
     fun _ => Except.ok ⟨"foo", ⟨"https://e/x.git", "main",
       "docker-compose.yml"⟩⟩,
     fun _ => Except.ok [], fun _ => Except.error "no repo"⟩
    [] ⟨"foo", ⟨"https://e/x.git", "main", "docker-compose.yml"⟩⟩ [] "no repo"
    [] (by rfl) (by intro q hq; cases hq) (by rfl) (by rfl)

/-- Kind test: whether a `list_projects` outcome is a `ListProjectsFailed`
error. -/
def isListProjectsFailedE : Except ProjectUsecaseError (List Project) → Bool
  | Except.error (ProjectUsecaseError.listProjectsFailed _) => true
  | _ => false

/-- Concrete listing environment in which the compose collaborator's
`list_containers` fails for the one discovered project. -/
def envComposeFail : ListEnv :=
  ⟨[Except.ok "manifest"],
   fun _ => Except.ok ⟨"foo", ⟨"https://e/x.git", "main",
     "docker-compose.yml"⟩⟩,
   fun _ => Except.error "docker down", fun _ => Except.ok 0⟩

/-- C7 (code evaluation at the failing input): when container-status
retrieval fails for a discovered project, `list_projects` as written returns
the constructor expression `ContainerStatusCheckFailed{project_name,
reason}` of src/usecases/project.rs line 198 — a variant the error enum of
src/errors/project.rs does not declare — and NOT an error of kind
`ListProjectsFailed` as the claim states. -/
theorem container_status_failure_error_kind :
    listProjects ⟨"/w/projects", "/w/repos"⟩ envComposeFail =
      Except.error (ProjectUsecaseError.containerStatusCheckFailed "foo"
        "docker down")
    ∧ isListProjectsFailedE
        (listProjects ⟨"/w/projects", "/w/repos"⟩ envComposeFail) = false := by
  constructor
  · rfl
  · rfl

theorem validateComposeFile_ok (fs : String → PathKind) (path : String)
    (h : fs path = PathKind.file) :
    validateComposeFileExistsAndNotDirectory fs path = Except.ok () := by
  unfold validateComposeFileExistsAndNotDirectory
  rw [h]

theorem listContainers_success_eq (fs : String → PathKind)
    (exec : List String → String → Except String CmdOutput)
    (jp : String → Except String JValue) (path wd fn : String)
    (out : CmdOutput) (hfs : fs path = PathKind.file)
    (hwf : getWorkingDirAndFileNameFrom path = Except.ok (wd, fn))
    (hex : exec ["compose", "-f", fn, "ps", "--all", "--format", "json"] wd =
      Except.ok out)
    (hok : out.exitSuccess = true) :
    listContainers fs exec jp path =
      (mapResults (parseContainerJson jp path) (nonBlankLines out.stdout),
       [(["compose", "-f", fn, "ps", "--all", "--format", "json"], wd)]) := by
  unfold listContainers
  rw [validateComposeFile_ok fs path hfs, hwf]
  simp only [hex, hok, if_true]

theorem extractJsonStringField_error_shape (v : JValue) (field path : String)
    (e : DockerComposeError)
    (h : extractJsonStringField v field path = Except.error e) :
    ∃ r, e = DockerComposeError.listContainersFailed path r := by
  unfold extractJsonStringField at h
  cases hg : (jGet v field).bind jAsStr with
  | some s => rw [hg] at h; cases h
  | none => rw [hg] at h; cases h; exact ⟨_, rfl⟩

theorem parseContainerState_error_shape (st path : String)
    (e : DockerComposeError) (h : parseContainerState st path = Except.error e) :
    ∃ r, e = DockerComposeError.listContainersFailed path r := by
  unfold parseContainerState at h
  split_ifs at h
  cases h
  exact ⟨_, rfl⟩

theorem parseContainerState_ok_iff (st path : String) :
    isOkE (parseContainerState st path) = true ↔
      st ∈ (["created", "dead", "exited", "paused", "removing", "restarting",
        "running"] : List String) := by
  unfold parseContainerState
  split_ifs with h1 h2 h3 h4 h5 h6 h7
  · subst h1; decide
  · subst h2; decide
  · subst h3; decide
  · subst h4; decide
  · subst h5; decide
  · subst h6; decide
  · subst h7; decide
  · simp only [isOkE, Bool.false_eq_true, false_iff, List.mem_cons,
      List.not_mem_nil, or_false]
    tauto

theorem parseContainerJson_error_shape (jp : String → Except String JValue)
    (path line : String) (e : DockerComposeError)
    (h : parseContainerJson jp path line = Except.error e) :
    ∃ r, e = DockerComposeError.listContainersFailed path r := by
  unfold parseContainerJson at h
  cases hjp : jp line with
  | error e2 =>
    simp only [hjp] at h
    cases h
    exact ⟨_, rfl⟩
  | ok v =>
    simp only [hjp] at h
    cases h1 : extractJsonStringField v "Name" path with
    | error e2 =>
      simp only [h1] at h
      cases h
      exact extractJsonStringField_error_shape v "Name" path _ h1
    | ok name =>
      simp only [h1] at h
      cases h2 : extractJsonStringField v "State" path with
      | error e2 =>
        simp only [h2] at h
        cases h
        exact extractJsonStringField_error_shape v "State" path _ h2
      | ok stateStr =>
        simp only [h2] at h
        cases h3 : parseContainerState stateStr path with
        | error e2 =>
          simp only [h3] at h
          cases h
          exact parseContainerState_error_shape stateStr path _ h3
        | ok st => simp only [h3] at h; cases h

/-- C8: for every compose-file path that is absent or not a regular file,
each of `up`, `down` and `list_containers` returns
`ComposeFileNotFound{path}` carrying that path and invokes the external
docker tool zero times. -/
theorem compose_ops_missing_file :
    ∀ (fs : String → PathKind)
      (exec : List String → String → Except String CmdOutput)
      (jp : String → Except String JValue) (path : String),
      fs path ≠ PathKind.file →
      composeUp fs exec path =
        (Except.error (DockerComposeError.composeFileNotFound path), [])
      ∧ composeDown fs exec path =
        (Except.error (DockerComposeError.composeFileNotFound path), [])
      ∧ listContainers fs exec jp path =
        (Except.error (DockerComposeError.composeFileNotFound path), []) := by
  intro fs exec jp path h
  have hv : validateComposeFileExistsAndNotDirectory fs path =
      Except.error (DockerComposeError.composeFileNotFound path) := by
    unfold validateComposeFileExistsAndNotDirectory
    cases hk : fs path with
    | missing => rfl
    | file => exact absurd hk h
    | directory => rfl
  refine ⟨?_, ?_, ?_⟩
  · unfold composeUp; rw [hv]
  · unfold composeDown; rw [hv]
  · unfold listContainers; rw [hv]

/-- C8 witness: the three operations on a nonexistent compose file. -/
theorem compose_ops_missing_file_witness :
    composeUp (fun _ => PathKind.missing) (fun _ _ => Except.ok ⟨true, "", ""⟩)
        "/nope/docker-compose.yml" =
      (Except.error
        (DockerComposeError.composeFileNotFound "/nope/docker-compose.yml"), [])
    ∧ composeDown (fun _ => PathKind.missing)
        (fun _ _ => Except.ok ⟨true, "", ""⟩) "/nope/docker-compose.yml" =
      (Except.error
        (DockerComposeError.composeFileNotFound "/nope/docker-compose.yml"), [])
    ∧ listContainers (fun _ => PathKind.missing)
        (fun _ _ => Except.ok ⟨true, "", ""⟩) (fun _ => Except.error "no json")
        "/nope/docker-compose.yml" =
      (Except.error
        (DockerComposeError.composeFileNotFound "/nope/docker-compose.yml"),
       []) :=
  compose_ops_missing_file (fun _ => PathKind.missing)
    (fun _ _ => Except.ok ⟨true, "", ""⟩) (fun _ => Except.error "no json")
    "/nope/docker-compose.yml" (by decide)

/-- C9: on a successful tool run, a line of output whose JSON lacks a
string `Name` field, lacks a string `State` field, or carries a `State`
outside the seven known lowercase tokens fails the entire
`list_containers` call with `ListContainersFailed{path, reason}` — the line
is not skipped — and the per-line reasons name the offending field or
state value; a line parses successfully exactly when both fields are
present strings and the state is one of the seven tokens. -/
theorem list_containers_strict_parsing :
    (∀ (fs : String → PathKind)
       (exec : List String → String → Except String CmdOutput)
       (jp : String → Except String JValue) (path wd fn : String)
       (out : CmdOutput) (line : String),
       fs path = PathKind.file →
       getWorkingDirAndFileNameFrom path = Except.ok (wd, fn) →
       exec ["compose", "-f", fn, "ps", "--all", "--format", "json"] wd =
         Except.ok out →
       out.exitSuccess = true →
       line ∈ nonBlankLines out.stdout →
       (∃ e, parseContainerJson jp path line = Except.error e) →
       ∃ reason, (listContainers fs exec jp path).1 =
         Except.error (DockerComposeError.listContainersFailed path reason))
    ∧ (∀ (jp : String → Except String JValue) (path line : String)
        (v : JValue),
        jp line = Except.ok v → (jGet v "Name").bind jAsStr = none →
        parseContainerJson jp path line = Except.error
          (DockerComposeError.listContainersFailed path
            "Missing 'Name' field in Docker compose output"))
    ∧ (∀ (jp : String → Except String JValue) (path line : String)
        (v : JValue) (name : String),
        jp line = Except.ok v → (jGet v "Name").bind jAsStr = some name →
        (jGet v "State").bind jAsStr = none →
        parseContainerJson jp path line = Except.error
          (DockerComposeError.listContainersFailed path
            "Missing 'State' field in Docker compose output"))
    ∧ (∀ (jp : String → Except String JValue) (path line : String)
        (v : JValue) (name st : String),
        jp line = Except.ok v → (jGet v "Name").bind jAsStr = some name →
        (jGet v "State").bind jAsStr = some st →
        st ∉ (["created", "dead", "exited", "paused", "removing",
          "restarting", "running"] : List String) →
        parseContainerJson jp path line = Except.error
          (DockerComposeError.listContainersFailed path
            ("Unknown container state: " ++ st)))
    ∧ (∀ (jp : String → Except String JValue) (path line : String)
        (v : JValue),
        jp line = Except.ok v →
        (isOkE (parseContainerJson jp path line) = true ↔
          (∃ n, (jGet v "Name").bind jAsStr = some n)
          ∧ ∃ st, (jGet v "State").bind jAsStr = some st
            ∧ st ∈ (["created", "dead", "exited", "paused", "removing",
              "restarting", "running"] : List String))) := by
  refine ⟨?_, ?_, ?_, ?_, ?_⟩
  · rintro fs exec jp path wd fn out line hfs hwf hex hok hline ⟨e, he⟩
    have heq := listContainers_success_eq fs exec jp path wd fn out hfs hwf
      hex hok
    rcases mapResults_error_of_mem (parseContainerJson jp path)
        (nonBlankLines out.stdout) line e hline he with ⟨e2, y, hy, hfy, hmr⟩
    rcases parseContainerJson_error_shape jp path y e2 hfy with ⟨r, rfl⟩
    refine ⟨r, ?_⟩
    rw [heq]
    exact hmr
  · intro jp path line v hjp hname
    have hext : extractJsonStringField v "Name" path = Except.error
        (DockerComposeError.listContainersFailed path
          "Missing 'Name' field in Docker compose output") := by
      unfold extractJsonStringField
      rw [hname]
      rfl
    simp only [parseContainerJson, hjp, hext]
  · intro jp path line v name hjp hname hstate
    have hext : extractJsonStringField v "Name" path = Except.ok name := by
      unfold extractJsonStringField
      rw [hname]
    have hext2 : extractJsonStringField v "State" path = Except.error
        (DockerComposeError.listContainersFailed path
          "Missing 'State' field in Docker compose output") := by
      unfold extractJsonStringField
      rw [hstate]
      rfl
    simp only [parseContainerJson, hjp, hext, hext2]
  · intro jp path line v name st hjp hname hstate hst
    have hext : extractJsonStringField v "Name" path = Except.ok name := by
      unfold extractJsonStringField
      rw [hname]
    have hext2 : extractJsonStringField v "State" path = Except.ok st := by
      unfold extractJsonStringField
      rw [hstate]
    have hps : parseContainerState st path = Except.error
        (DockerComposeError.listContainersFailed path
          ("Unknown container state: " ++ st)) := by
      unfold parseContainerState
      split_ifs with h1 h2 h3 h4 h5 h6 h7
      · subst h1; exact absurd (by decide) hst
      · subst h2; exact absurd (by decide) hst
      · subst h3; exact absurd (by decide) hst
      · subst h4; exact absurd (by decide) hst
      · subst h5; exact absurd (by decide) hst
      · subst h6; exact absurd (by decide) hst
      · subst h7; exact absurd (by decide) hst
      · rfl
    simp only [parseContainerJson, hjp, hext, hext2, hps]
  · intro jp path line v hjp
    cases hn : (jGet v "Name").bind jAsStr with
    | none =>
      have hext : extractJsonStringField v "Name" path = Except.error
          (DockerComposeError.listContainersFailed path
            "Missing 'Name' field in Docker compose output") := by
        unfold extractJsonStringField
        rw [hn]
        rfl
      simp only [parseContainerJson, hjp, hext]
      simp [isOkE, hn]
    | some n =>
      have hext : extractJsonStringField v "Name" path = Except.ok n := by
        unfold extractJsonStringField
        rw [hn]
      cases hs : (jGet v "State").bind jAsStr with
      | none =>
        have hext2 : extractJsonStringField v "State" path = Except.error
            (DockerComposeError.listContainersFailed path
              "Missing 'State' field in Docker compose output") := by
          unfold extractJsonStringField
          rw [hs]
          rfl
        simp only [parseContainerJson, hjp, hext, hext2]
        simp [isOkE, hn, hs]
      | some st =>
        have hext2 : extractJsonStringField v "State" path = Except.ok st := by
          unfold extractJsonStringField
          rw [hs]
        cases hps : parseContainerState st path with
        | error e =>
          have hnot : st ∉ (["created", "dead", "exited", "paused",
              "removing", "restarting", "running"] : List String) := by
            intro hmem
            have hok := (parseContainerState_ok_iff st path).mpr hmem
            rw [hps] at hok
            simp [isOkE] at hok
          simp only [parseContainerJson, hjp, hext, hext2, hps]
          simp [isOkE, hn, hs]
          simpa using hnot
        | ok c =>
          have hmem : st ∈ (["created", "dead", "exited", "paused",
              "removing", "restarting", "running"] : List String) :=
            (parseContainerState_ok_iff st path).mp (by rw [hps]; rfl)
          simp only [parseContainerJson, hjp, hext, hext2, hps]
          simp [isOkE, hn, hs]
          simpa using hmem

/-- C9 witness: the missing-State part applied to a line whose JSON object
carries only a `Name` field. -/
theorem list_containers_strict_parsing_witness :
    parseContainerJson (fun _ => Except.ok (JValue.obj [("Name",
      JValue.str "web-1")])) "/p/docker-compose.yml" "line1" = Except.error
      (DockerComposeError.listContainersFailed "/p/docker-compose.yml"
        "Missing 'State' field in Docker compose output") :=
  list_containers_strict_parsing.2.2.1
    (fun _ => Except.ok (JValue.obj [("Name", JValue.str "web-1")]))
    "/p/docker-compose.yml" "line1"
    (JValue.obj [("Name", JValue.str "web-1")]) "web-1"
    (by rfl) (by rfl) (by rfl)

/-- C10: on a successful tool run, `list_containers` parses exactly the
non-blank lines of the tool's stdout: its result is the collected parse of
`nonBlankLines stdout`, a blank (whitespace-only) line is never among the
parsed lines, an all-blank stdout yields the successful empty list, and a
successful call returns exactly one container per non-blank line. -/
theorem list_containers_skips_blank_lines :
    ∀ (fs : String → PathKind)
      (exec : List String → String → Except String CmdOutput)
      (jp : String → Except String JValue) (path wd fn : String)
      (out : CmdOutput),
      fs path = PathKind.file →
      getWorkingDirAndFileNameFrom path = Except.ok (wd, fn) →
      exec ["compose", "-f", fn, "ps", "--all", "--format", "json"] wd =
        Except.ok out →
      out.exitSuccess = true →
      ((listContainers fs exec jp path).1 =
        mapResults (parseContainerJson jp path) (nonBlankLines out.stdout))
      ∧ (∀ l, (rustTrim l).isEmpty = true → l ∉ nonBlankLines out.stdout)
      ∧ (nonBlankLines out.stdout = [] →
          (listContainers fs exec jp path).1 = Except.ok [])
      ∧ (∀ cs, (listContainers fs exec jp path).1 = Except.ok cs →
          cs.length = (nonBlankLines out.stdout).length) := by
  intro fs exec jp path wd fn out hfs hwf hex hok
  have heq := listContainers_success_eq fs exec jp path wd fn out hfs hwf
    hex hok
  have h1 : (listContainers fs exec jp path).1 =
      mapResults (parseContainerJson jp path) (nonBlankLines out.stdout) := by
    rw [heq]
  refine ⟨h1, ?_, ?_, ?_⟩
  · intro l hblank hmem
    rcases List.mem_filter.mp hmem with ⟨_, hp⟩
    rw [hblank] at hp
    simp at hp
  · intro hempty
    rw [h1, hempty]
    rfl
  · intro cs hcs
    rw [h1] at hcs
    exact mapResults_length _ _ _ hcs

/-- C10 witness: an output consisting only of blank and whitespace-only
lines yields a successful empty container list, even under a JSON oracle
that would reject every line it were given. -/
theorem list_containers_skips_blank_lines_witness :
    (listContainers (fun _ => PathKind.file)
      (fun _ _ => Except.ok ⟨true, "\n \n\t\n", ""⟩) (fun _ => Except.error "bad json")
      "/p/docker-compose.yml").1 = Except.ok [] :=
  (list_containers_skips_blank_lines (fun _ => PathKind.file)
    (fun _ _ => Except.ok ⟨true, "\n \n\t\n", ""⟩) (fun _ => Except.error "bad json")
    "/p/docker-compose.yml" "/p" "docker-compose.yml" ⟨true, "\n \n\t\n", ""⟩
    (by rfl) (by rfl) (by rfl) (by rfl)).2.2.1 (by rfl)

end Gfc
